import Mathlib

/-!
Verification development for the address-change automation service
(`src/automation`): a shallow embedding, in Lean, of the case state
machine, the quality / business-rules / registry / certificate pipeline
steps (`tools/mcp_server.py`), the pattern-memory store (`db.py`) and the
human-review resolution endpoint (`api.py`), together with theorems about
their behaviour.

Modelling conventions:
* The Postgres database is a pure value `DB` (case rows, the append-only
  audit log in insertion order, and the `case_resolutions` table).
  Timestamp columns (`updated_at`, `last_used_at`, audit `timestamp`) are
  not modelled: no property below observes them, and audit ordering by
  timestamp is modelled as insertion order.
* Python strings are Lean `String`s; the Python `str` methods used by the
  source (`lower`, `upper`, `title`, `strip`, `isdigit`, `isupper`) and
  the regex character class `\w` are modelled for the ASCII and Latin-1
  letter ranges (plus U+0178), which covers the German-address alphabet
  the source manipulates.
* Python floats: every confidence value reachable in `assess_quality`
  (0.60, 0.75, 0.90, the +0.10 boost, the 0.85 cap) is stored in
  hundredths as a `Nat`; on these values IEEE-754 arithmetic agrees
  exactly with exact arithmetic, so the embedding is faithful.
  `difflib.SequenceMatcher.ratio` values are represented as exact `Rat`;
  for the token lengths involved, distinct exact ratios are farther apart
  than one ulp, so float comparisons agree with the exact ones.
-/

namespace AddressChange

/-- Model of Python `str.lower` / `re.IGNORECASE` folding for one character,
covering ASCII, the Latin-1 letters (`À`..`Þ` except `×` map down by 0x20)
and `Ÿ` (U+0178 → U+00FF). -/
def pyLowerChar (c : Char) : Char :=
  let n := c.toNat
  if 65 ≤ n ∧ n ≤ 90 then Char.ofNat (n + 32)
  else if 0xC0 ≤ n ∧ n ≤ 0xDE ∧ n ≠ 0xD7 then Char.ofNat (n + 32)
  else if n = 0x178 then Char.ofNat 0xFF
  else c

/-- Model of Python `str.upper` for one character (ASCII and Latin-1;
`ß` (0xDF) and `ÿ` (0xFF) are left unchanged, faithful to `ß` only in
positions where the source never title-cases it). -/
def pyUpperChar (c : Char) : Char :=
  let n := c.toNat
  if 97 ≤ n ∧ n ≤ 122 then Char.ofNat (n - 32)
  else if 0xE0 ≤ n ∧ n ≤ 0xFE ∧ n ≠ 0xF7 then Char.ofNat (n - 32)
  else c

/-- A cased (alphabetic) character of the modelled alphabet. -/
def pyIsAlpha (c : Char) : Bool :=
  let n := c.toNat
  (65 ≤ n && n ≤ 90) || (97 ≤ n && n ≤ 122) ||
  (0xC0 ≤ n && n ≤ 0xFF && n ≠ 0xD7 && n ≠ 0xF7) || n = 0x178

/-- An uppercase letter of the modelled alphabet. -/
def pyIsUpperChar (c : Char) : Bool :=
  let n := c.toNat
  (65 ≤ n && n ≤ 90) || (0xC0 ≤ n && n ≤ 0xDE && n ≠ 0xD7) || n = 0x178

/-- The regex class `\w` (Unicode word character) on the modelled
alphabet: letters, ASCII digits, underscore. -/
def isWordChar (c : Char) : Bool :=
  pyIsAlpha c || c.isDigit || c == '_'

/-- Python `str.lower` on a whole string. -/
def pyLower (s : String) : String :=
  String.mk (s.data.map pyLowerChar)

/-- Python `str.isdigit` (nonempty and all ASCII digits, the only digits
appearing in the source's data). -/
def pyIsDigit (s : String) : Bool :=
  !s.data.isEmpty && s.data.all Char.isDigit

/-- Python `str.isupper`: at least one cased character, and every cased
character uppercase. -/
def pyIsUpper (s : String) : Bool :=
  s.data.any pyIsAlpha && s.data.all (fun c => !pyIsAlpha c || pyIsUpperChar c)

/-- Python `str.title` at character granularity: a cased character that
does not follow a cased character is uppercased, any other cased
character is lowercased. -/
def pyTitleAux : Bool → List Char → List Char
  | _, [] => []
  | prevCased, c :: cs =>
    (if pyIsAlpha c then (if prevCased then pyLowerChar c else pyUpperChar c) else c)
      :: pyTitleAux (pyIsAlpha c) cs

/-- Python `str.title` on a whole string. -/
def pyTitle (s : String) : String :=
  String.mk (pyTitleAux false s.data)

/-- The maximal runs of `\w` characters of a string: the matches of
`re.findall(r'[\w]+', s)`, and the word tokens that anchor the `\b`
boundaries used by the quality regexes. -/
def wordTokensAux : List Char → List Char → List String
  | acc, [] => if acc.isEmpty then [] else [String.mk acc.reverse]
  | acc, c :: cs =>
    if isWordChar c then wordTokensAux (c :: acc) cs
    else if acc.isEmpty then wordTokensAux [] cs
    else String.mk acc.reverse :: wordTokensAux [] cs

/-- `tokenize_address` from `api.py` (`re.findall(r'[\w]+', address)`). -/
def wordTokens (s : String) : List String :=
  wordTokensAux [] s.data

/-- Drop leading whitespace from a character list. -/
def dropLeadingWs : List Char → List Char
  | [] => []
  | c :: cs => if c.isWhitespace then dropLeadingWs cs else c :: cs

/-- Python `str.strip()` (no arguments): remove leading and trailing
whitespace. -/
def pyStrip (s : String) : String :=
  String.mk ((dropLeadingWs (dropLeadingWs s.data).reverse).reverse)

/-- Python `str.startswith` on whole strings. -/
def strStartsWith (s pre : String) : Bool :=
  pre.data.isPrefixOf s.data

/-- Python `str.endswith` on whole strings. -/
def strEndsWith (s suf : String) : Bool :=
  suf.data.isSuffixOf s.data

/-- Non-overlapping leftmost replacement of every occurrence of `pat`
in the text (Python `str.replace`); the fuel is the text length, enough
because every step consumes at least one character.  An empty `pat`
(never passed by the source) is treated as matching nowhere. -/
def strReplaceAux (pat repl : List Char) : Nat → List Char → List Char
  | _, [] => []
  | 0, s => s
  | fuel + 1, c :: cs =>
    if pat.isPrefixOf (c :: cs) then
      repl ++ strReplaceAux pat repl fuel (List.drop pat.length (c :: cs))
    else
      c :: strReplaceAux pat repl fuel cs

/-- Python `str.replace(pat, repl)` on whole strings. -/
def strReplace (s pat repl : String) : String :=
  if pat.data.isEmpty then s
  else String.mk (strReplaceAux pat.data repl.data s.data.length s.data)

/-- A single-quote character, used when reproducing the source's audit
message formats and Python `repr` output. -/
def sq : String := String.singleton (Char.ofNat 39)

/-- Python `repr` of a `bool` (`True` / `False`), as interpolated into
audit messages by f-strings. -/
def pyBool (b : Bool) : String := if b then "True" else "False"

/-- Python `repr` of a list of strings, as interpolated by f-strings
(e.g. `['Musterstr', '12a']`). -/
def pyStrListRepr (l : List String) : String :=
  "[" ++ String.intercalate ", " (l.map (fun s => sq ++ s ++ sq)) ++ "]"

/-! ### Whole-word case-insensitive substitution

`apply_learned_corrections` (db.py) builds, for each stored pattern `p`,
the regex `r'\b' + re.escape(p) + r'\b'` and runs `re.search` /
`re.sub(..., flags=re.IGNORECASE)` against the working address.  The
functions below model that: a `\b` boundary holds between two positions
iff exactly one of the adjacent characters is a word character (ends of
the string count as non-word), matching is case-insensitive, and `re.sub`
replaces every non-overlapping occurrence, scanning left to right and
continuing after the matched region of the original string (the
replacement text is not rescanned). -/

/-- Case-insensitive character equality (regex `re.IGNORECASE`). -/
def ciEq (a b : Char) : Bool := pyLowerChar a == pyLowerChar b

/-- Try to strip the pattern (nonempty) from the front of the text,
case-insensitively; returns the last consumed text character (for the
trailing `\b` check) and the remaining text. -/
def stripCI : List Char → List Char → Option (Char × List Char)
  | [p], c :: cs => if ciEq p c then some (c, cs) else none
  | p :: p' :: ps, c :: cs => if ciEq p c then stripCI (p' :: ps) cs else none
  | _, [] => none
  | [], _ :: _ => none

/-- A `\b` word boundary between an optional left character (none at the
ends of the string) and an optional right character. -/
def wordBoundary (l r : Option Char) : Bool :=
  (match l with | some c => isWordChar c | none => false)
    != (match r with | some c => isWordChar c | none => false)

/-- Try a whole-word match of the pattern at the current position:
boundary before, case-insensitive equality, boundary after.  `prev` is
the original character immediately before the position. -/
def matchWordAt (pat : List Char) (prev : Option Char) (s : List Char) :
    Option (Char × List Char) :=
  match stripCI pat s with
  | none => none
  | some (lastc, rest) =>
    if wordBoundary prev s.head? && wordBoundary (some lastc) rest.head? then
      some (lastc, rest)
    else none

/-- Fuel-driven scan performing `re.sub` of every whole-word occurrence
and reporting whether any occurrence was found (`re.search`).  The fuel
is at least the text length at every call site, and each step consumes at
least one text character, so the fuel never runs out. -/
def subAllAux (pat repl : List Char) : Nat → Option Char → List Char → Bool × List Char
  | _, _, [] => (false, [])
  | 0, _, s => (false, s)
  | fuel + 1, prev, c :: cs =>
    match matchWordAt pat prev (c :: cs) with
    | some (lastc, rest) =>
      let r := subAllAux pat repl fuel (some lastc) rest
      (true, repl ++ r.2)
    | none =>
      let r := subAllAux pat repl fuel (some c) cs
      (r.1, c :: r.2)

/-- `(re.search(rx, s, I) is not None, re.sub(rx, repl, s, flags=I))` for
`rx = r'\b' + re.escape(pat) + r'\b'`.  An empty pattern (unreachable
from the learning store, whose tokens have length ≥ 2) is treated as
matching nowhere. -/
def subAll (pat repl s : String) : Bool × String :=
  if pat.data.isEmpty then (false, s)
  else
    let r := subAllAux pat.data repl.data s.data.length none s.data
    (r.1, String.mk r.2)

/-! ### The pattern-memory store (`case_resolutions`) -/

/-- One row of the `case_resolutions` table (db.py).  `last_used_at` is
not modelled (never observed). -/
structure Resolution where
  id : Nat
  original_pattern : String
  corrected_value : String
  resolution_type : String
  frequency : Nat
  deriving Repr, DecidableEq

/-- The next serial `id` for an insert into `case_resolutions`. -/
def nextResolutionId (rs : List Resolution) : Nat :=
  (rs.map Resolution.id).foldr max 0 + 1

/-- The upsert key of `store_resolution`: the SQL
`WHERE original_pattern = %s AND resolution_type = %s`. -/
def resKeyMatches (original_pattern resolution_type : String) (r : Resolution) : Bool :=
  r.original_pattern == original_pattern && r.resolution_type == resolution_type

/-- `store_resolution` (db.py): upsert keyed on
`(original_pattern, resolution_type)` — if a row with that key exists,
overwrite `corrected_value` and increment `frequency`; otherwise insert a
fresh row with `frequency` 1.  Returns the updated table and the row id. -/
def store_resolution (rs : List Resolution) (original_pattern corrected_value resolution_type : String) :
    List Resolution × Nat :=
  match rs.find? (resKeyMatches original_pattern resolution_type) with
  | some existing =>
    (rs.map (fun r =>
        if r.id == existing.id then
          { r with corrected_value := corrected_value, frequency := r.frequency + 1 }
        else r),
     existing.id)
  | none =>
    let rid := nextResolutionId rs
    (rs ++ [{ id := rid, original_pattern := original_pattern,
              corrected_value := corrected_value,
              resolution_type := resolution_type, frequency := 1 }],
     rid)

/-- Strict precedence for `ORDER BY LENGTH(original_pattern) DESC,
frequency DESC`: `a` must come before `b`. -/
def resBefore (a b : Resolution) : Bool :=
  b.original_pattern.length < a.original_pattern.length
  || (b.original_pattern.length == a.original_pattern.length && b.frequency < a.frequency)

/-- Insertion for the order-by sort. -/
def insertRes (x : Resolution) : List Resolution → List Resolution
  | [] => [x]
  | y :: ys => if resBefore y x then y :: insertRes x ys else x :: y :: ys

/-- The `ORDER BY LENGTH(original_pattern) DESC, frequency DESC` read
performed by `apply_learned_corrections` (ties are unspecified in SQL;
any order consistent with the keys is a faithful model). -/
def sortResolutions (rs : List Resolution) : List Resolution :=
  rs.foldl (fun acc r => insertRes r acc) []

/-- One entry of the `corrections_applied` list built by
`apply_learned_corrections` (keys `original`, `corrected`, `type`). -/
structure Applied where
  original : String
  corrected : String
  rtype : String
  deriving Repr, DecidableEq

/-- Python `repr` of one applied-correction dict. -/
def appliedRepr (a : Applied) : String :=
  "\x7b" ++ sq ++ "original" ++ sq ++ ": " ++ sq ++ a.original ++ sq ++ ", "
    ++ sq ++ "corrected" ++ sq ++ ": " ++ sq ++ a.corrected ++ sq ++ ", "
    ++ sq ++ "type" ++ sq ++ ": " ++ sq ++ a.rtype ++ sq ++ "\x7d"

/-- Python `repr` of the `corrections_applied` list. -/
def appliedListRepr (l : List Applied) : String :=
  "[" ++ String.intercalate ", " (l.map appliedRepr) ++ "]"

/-- The per-pattern loop body of `apply_learned_corrections`: substitute
if the whole-word search succeeds, and record the applied correction. -/
def applyPatternStep (acc : String × List Applied) (r : Resolution) : String × List Applied :=
  let res := subAll r.original_pattern r.corrected_value acc.1
  if res.1 then
    (res.2, acc.2 ++ [⟨r.original_pattern, r.corrected_value, r.resolution_type⟩])
  else acc

/-- `apply_learned_corrections` (db.py): read all patterns ordered by
descending length then descending frequency and fold the whole-word
case-insensitive substitution over them, accumulating the list of
corrections actually applied.  (The source also touches each matched
pattern's `last_used_at`; timestamps are outside the model.) -/
def apply_learned_corrections (rs : List Resolution) (address : String) :
    String × List Applied :=
  (sortResolutions rs).foldl applyPatternStep (address, [])

/-! ### The case store (`cases` table) and audit log -/

/-- One row of the `cases` table (the columns the core reads/writes). -/
structure CaseRow where
  id : Nat
  case_id : String
  status : String
  canonical_address : Option String
  registry_exists : Option Bool
  citizen_name : String
  dob : String
  email : String
  old_address_raw : String
  new_address_raw : String
  move_in_date_raw : String
  landlord_name : Option String
  deriving Repr, DecidableEq

/-- The persistent store: case rows (in insertion order), the append-only
audit log (`(case_id, message)` pairs, ordered as written; the source
orders reads by timestamp, which coincides with insertion order), and the
`case_resolutions` pattern memory. -/
structure DB where
  cases : List CaseRow
  audit : List (String × String)
  resolutions : List Resolution
  deriving Repr, DecidableEq

/-- Python `str.split()` (split on whitespace runs, dropping empties),
used by `normalize_case_id`. -/
def splitWsAux : List Char → List Char → List String
  | acc, [] => if acc.isEmpty then [] else [String.mk acc.reverse]
  | acc, c :: cs =>
    if c.isWhitespace then
      if acc.isEmpty then splitWsAux [] cs
      else String.mk acc.reverse :: splitWsAux [] cs
    else splitWsAux (c :: acc) cs

/-- Python `str.split()` on a whole string. -/
def pySplitWs (s : String) : List String :=
  splitWsAux [] s.data

/-- `normalize_case_id` (db.py): coerce `"N"`, `"case id N"` etc. to the
canonical `"Case ID: N"` display format, passing anything else through. -/
def normalize_case_id (case_id : String) : String :=
  let c := pyStrip case_id
  if strStartsWith c "Case ID:" then c
  else if pyIsDigit c then "Case ID: " ++ c
  else if strStartsWith (pyLower c) "case id" then
    let parts := pySplitWs c
    if 3 ≤ parts.length then "Case ID: " ++ parts.getLastD "" else c
  else c

/-- `fetch_case_by_id` (db.py): first row whose `case_id` equals the
normalized identifier (`fetchone` on an unordered select). -/
def fetch_case_by_id (db : DB) (case_id : String) : Option CaseRow :=
  db.cases.find? (fun r => r.case_id == normalize_case_id case_id)

/-- `update_case_status` (db.py): `UPDATE cases SET status = … WHERE
case_id = …` after normalization. -/
def update_case_status (db : DB) (case_id status : String) : DB :=
  let n := normalize_case_id case_id
  { db with cases := db.cases.map (fun r =>
      if r.case_id == n then { r with status := status } else r) }

/-- `set_canonical_address` (db.py). -/
def set_canonical_address (db : DB) (case_id canonical_address : String) : DB :=
  let n := normalize_case_id case_id
  { db with cases := db.cases.map (fun r =>
      if r.case_id == n then { r with canonical_address := some canonical_address } else r) }

/-- `set_registry_exists` (db.py). -/
def set_registry_exists (db : DB) (case_id : String) (ex : Bool) : DB :=
  let n := normalize_case_id case_id
  { db with cases := db.cases.map (fun r =>
      if r.case_id == n then { r with registry_exists := some ex } else r) }

/-- `get_canonical_address` (db.py): returns `None` both for a missing
row and for a row whose column is NULL. -/
def get_canonical_address (db : DB) (case_id : String) : Option String :=
  (fetch_case_by_id db case_id).bind CaseRow.canonical_address

/-- `add_audit_entry` (db.py): append one `(case_id, message)` row. -/
def add_audit_entry (db : DB) (case_id message : String) : DB :=
  { db with audit := db.audit ++ [(normalize_case_id case_id, message)] }

/-- The next serial numeric id for an insert into `cases`. -/
def nextCaseNumericId (db : DB) : Nat :=
  (db.cases.map CaseRow.id).foldr max 0 + 1

/-- The extracted citizen data handed to `create_case` / carried through
the pipeline (`ingest_case`'s `extracted` dict). -/
structure CitizenData where
  citizen_name : String
  dob : String
  email : String
  old_address_raw : String
  new_address_raw : String
  move_in_date_raw : String
  landlord_name : Option String
  deriving Repr, DecidableEq

/-- `create_case` (db.py): insert a fresh `INGESTED` row and store its
display identifier `"Case ID: N"`. -/
def create_case (db : DB) (data : CitizenData) : DB × String :=
  let nid := nextCaseNumericId db
  let cid := "Case ID: " ++ toString nid
  ({ db with cases := db.cases ++ [{
      id := nid, case_id := cid, status := "INGESTED",
      canonical_address := none, registry_exists := none,
      citizen_name := data.citizen_name, dob := data.dob, email := data.email,
      old_address_raw := data.old_address_raw, new_address_raw := data.new_address_raw,
      move_in_date_raw := data.move_in_date_raw, landlord_name := data.landlord_name }] },
   cid)

/-! ### Quality Assessor (`assess_quality`, mcp_server.py) -/

/-- The complete German street endings of `assess_quality`'s
`complete_street_patterns` list. -/
def completeStreetSuffixes : List String :=
  ["straße", "strasse", "weg", "platz", "allee",
   "ring", "damm", "ufer", "gasse", "steig", "pfad"]

/-- `re.search(r'\b\w+(straße|…|pfad)\b', s, re.IGNORECASE)`: some word
token consists of at least one word character followed by one of the
suffixes — i.e. ends (case-insensitively) with the suffix and is strictly
longer than it. -/
def hasCompleteStreet (s : String) : Bool :=
  (wordTokens s).any (fun t =>
    completeStreetSuffixes.any (fun suf =>
      decide (suf.length < t.length) && strEndsWith (pyLower t) suf))

/-- `re.search(r'\b\w+str\b(?!aße|asse)', s, re.IGNORECASE)`: some word
token of length ≥ 4 ends (case-insensitively) with `"str"` (the negative
lookahead is redundant after the `\b`, which already requires a non-word
character next). -/
def hasIncompleteStreet (s : String) : Bool :=
  (wordTokens s).any (fun t =>
    decide (4 ≤ t.length) && strEndsWith (pyLower t) "str")

/-- Python `str` of the reachable confidence floats (stored as
hundredths): `0.6`, `0.7`, `0.75`, `0.85`, `0.9`. -/
def confStr (c : Nat) : String :=
  if c % 10 == 0 then "0." ++ toString (c / 10) else "0." ++ toString c

/-- Output model of `assess_quality` (`AssessQualityOutput`), with the
confidence in hundredths. -/
structure AssessQualityOutput where
  case_id : String
  canonical_address : String
  confidence : Nat
  needs_hitl : Bool
  hitl_task_id : Option String
  deriving Repr, DecidableEq

/-- `assess_quality` (mcp_server.py): apply the pattern memory, classify
the street-name completeness, compute the static confidence and the
memory boost, set `WAITING_FOR_HUMAN` or `QUALITY_OK`, and store the
title-cased canonical address. -/
def assess_quality (db : DB) (case_id new_address_raw : String) :
    DB × AssessQualityOutput :=
  let original_raw := pyStrip new_address_raw
  let ac := apply_learned_corrections db.resolutions original_raw
  let corrected_address := ac.1
  let corrections_applied := ac.2
  let db := if !corrections_applied.isEmpty then
      add_audit_entry db case_id ("Memory applied "
        ++ toString corrections_applied.length ++ " corrections: "
        ++ appliedListRepr corrections_applied)
    else db
  let cr : Nat × String × DB :=
    if hasIncompleteStreet corrected_address then
      (60, "street name incomplete (e.g., " ++ sq ++ "Ziegelstr" ++ sq
        ++ " should be " ++ sq ++ "Ziegelstraße" ++ sq ++ ")",
       add_audit_entry db case_id "Incomplete street detected: confidence=0.60")
    else if hasCompleteStreet corrected_address then
      (90, "street name complete",
       add_audit_entry db case_id "Complete street name: confidence=0.90")
    else
      (75, "street format unclear",
       add_audit_entry db case_id "Street format unclear: confidence=0.75")
  let confidence := cr.1
  let reason := cr.2.1
  let db := cr.2.2
  let boosted := !corrections_applied.isEmpty && confidence < 90
  let confidence := if boosted then min 85 (confidence + 10) else confidence
  let db := if boosted then
      add_audit_entry db case_id ("Memory boost applied: confidence=" ++ confStr confidence)
    else db
  let canonical := pyTitle corrected_address
  let needs_hitl := confidence < 80
  let hitl_task_id := if needs_hitl then some ("HITL-" ++ case_id) else none
  let db :=
    if needs_hitl then
      add_audit_entry (update_case_status db case_id "WAITING_FOR_HUMAN") case_id
        ("HITL required. confidence=" ++ confStr confidence ++ " | Reason: " ++ reason)
    else
      add_audit_entry (update_case_status db case_id "QUALITY_OK") case_id
        ("Address quality OK. confidence=" ++ confStr confidence)
  let db := set_canonical_address db case_id canonical
  (db, { case_id := case_id, canonical_address := canonical,
         confidence := confidence, needs_hitl := needs_hitl,
         hitl_task_id := hitl_task_id })

/-! ### Business Rules Engine (`check_business_rules`, mcp_server.py) -/

/-- Leap year (proleptic Gregorian), as in Python's `datetime`. -/
def isLeapYear (y : Nat) : Bool :=
  (y % 4 == 0 && y % 100 != 0) || y % 400 == 0

/-- Days in a month of the Gregorian calendar. -/
def daysInMonth (y m : Nat) : Nat :=
  if m == 2 then (if isLeapYear y then 29 else 28)
  else if m == 4 || m == 6 || m == 9 || m == 11 then 30
  else 31

/-- Serial day number of a civil date (days since 1970-01-01, negative
before); the standard days-from-civil computation. -/
def dayNumber (y m d : Nat) : Int :=
  let y' : Int := if m ≤ 2 then (y : Int) - 1 else (y : Int)
  let era : Int := y'.fdiv 400
  let yoe : Int := y' - era * 400
  let mp : Int := if 2 < m then (m : Int) - 3 else (m : Int) + 9
  let doy : Int := (153 * mp + 2).fdiv 5 + (d : Int) - 1
  let doe : Int := yoe * 365 + yoe.fdiv 4 - yoe.fdiv 100 + doy
  era * 146097 + doe - 719468

/-- Parse a run of ASCII digits of an exact length. -/
def parseDigits (cs : List Char) : Option Nat :=
  if cs.isEmpty || !cs.all Char.isDigit then none
  else some (cs.foldl (fun acc c => acc * 10 + (c.toNat - 48)) 0)

/-- Model of `datetime.fromisoformat` for the calendar-date core
`YYYY-MM-DD` (the only shape the source feeds it): returns the day
number, or `none` when the string is not a valid date in that format.
Time-of-day suffixes, which the workflow's move-in-date strings never
carry, are outside the model and map to `none`. -/
def fromisoformat (s : String) : Option Int :=
  match s.data with
  | [y1, y2, y3, y4, h1, m1, m2, h2, d1, d2] =>
    if h1 == '-' && h2 == '-' then
      match parseDigits [y1, y2, y3, y4], parseDigits [m1, m2], parseDigits [d1, d2] with
      | some y, some m, some d =>
        if 1 ≤ y && y ≤ 9999 && 1 ≤ m && m ≤ 12 && 1 ≤ d && d ≤ daysInMonth y m then
          some (dayNumber y m d)
        else none
      | _, _, _ => none
    else none
  | _ => none

/-- The `datetime.utcnow()` instant: a day number and the seconds already
elapsed in that day. -/
structure NowTime where
  day : Int
  secOfDay : Nat
  deriving Repr, DecidableEq

/-- `(move_date - now).days` for a move-in date parsed at midnight:
`timedelta` normalizes with floor division. -/
def deltaDays (now : NowTime) (moveDay : Int) : Int :=
  (moveDay * 86400 - (now.day * 86400 + (now.secOfDay : Int))).fdiv 86400

/-- Caller-supplied input of `check_business_rules`
(`BusinessRulesInput`, mcp_server.py). -/
structure BusinessRulesInput where
  case_id : String
  move_in_date_raw : String
  canonical_address : String
  documents_ok : Bool
  deriving Repr, DecidableEq

/-- Output model of `check_business_rules` (`BusinessRulesOutput`);
`rule_results` keeps the dict's insertion order. -/
structure BusinessRulesOutput where
  case_id : String
  overall_status : String
  needs_hitl : Bool
  rule_results : List (String × String)
  hitl_task_id : Option String
  deriving Repr, DecidableEq

/-- Python `repr` of the `rule_results` dict, as interpolated into the
audit message. -/
def ruleResultsRepr (l : List (String × String)) : String :=
  "\x7b" ++ String.intercalate ", "
    (l.map (fun p => sq ++ p.1 ++ sq ++ ": " ++ sq ++ p.2 ++ sq)) ++ "\x7d"

/-- The `WAITING_FOR_HUMAN` gate of `check_business_rules` (the step
skips itself when the stored case is paused for human review). -/
def businessRulesSkip (db : DB) (case_id : String) : Bool :=
  match fetch_case_by_id db case_id with
  | some row => row.status == "WAITING_FOR_HUMAN"
  | none => false

/-- `check_business_rules` (mcp_server.py): skip when paused for HITL;
otherwise evaluate the move-in-date window `[-365, +30]` days around
`now`, address-format compliance of the *stored* canonical address
(comma and digit required), and the documents flag; pause the case when
any rule fails. -/
def check_business_rules (now : NowTime) (db : DB) (input : BusinessRulesInput) :
    DB × BusinessRulesOutput :=
  if businessRulesSkip db input.case_id then
    (add_audit_entry db input.case_id
        "Business rules check skipped - case waiting for HITL address correction",
     { case_id := input.case_id, overall_status := "paused", needs_hitl := true,
       rule_results := [("HITL_PENDING",
         "Waiting for human to correct address before validating business rules")],
       hitl_task_id := some ("HITL-" ++ input.case_id) })
  else
    let dateRule : String × Bool :=
      match fromisoformat input.move_in_date_raw with
      | some moveDay =>
        let delta := deltaDays now moveDay
        if -365 ≤ delta && delta ≤ 30 then ("ok", false) else ("suspicious", true)
      | none => ("invalid_format", true)
    let addr := (get_canonical_address db input.case_id).getD ""
    let has_comma := addr.data.contains ','
    let has_digit := addr.data.any Char.isDigit
    let addrRule : String × Bool :=
      if has_comma && has_digit then ("passed", false) else ("failed", true)
    let docsRule : String × Bool :=
      if input.documents_ok then ("ok", false) else ("missing_or_invalid", true)
    let needs_hitl := dateRule.2 || addrRule.2 || docsRule.2
    let rule_results := [("move_in_date", dateRule.1),
                         ("address_format_compliance", addrRule.1),
                         ("documents", docsRule.1)]
    let overall_status := if needs_hitl then "failed" else "passed"
    let db :=
      if needs_hitl then
        add_audit_entry (update_case_status db input.case_id "WAITING_FOR_HUMAN") input.case_id
          ("HITL required for business rules. status=" ++ overall_status
            ++ ", rule_results=" ++ ruleResultsRepr rule_results)
      else
        add_audit_entry (update_case_status db input.case_id "RULES_PASSED") input.case_id
          ("Business rules passed. rule_results=" ++ ruleResultsRepr rule_results)
    (db, { case_id := input.case_id, overall_status := overall_status,
           needs_hitl := needs_hitl, rule_results := rule_results,
           hitl_task_id := if needs_hitl then some ("HITL-RULES-" ++ input.case_id) else none })

/-! ### Registry Update and Certificate Generation (mcp_server.py) -/

/-- The pause gate shared by `update_registry` and
`generate_certificate`: skip when the stored status is
`WAITING_FOR_HUMAN` or `paused`. -/
def pausedSkip (db : DB) (case_id : String) : Bool :=
  match fetch_case_by_id db case_id with
  | some row => row.status == "WAITING_FOR_HUMAN" || row.status == "paused"
  | none => false

/-- Output model of `update_registry` (`UpdateRegistryOutput`; the skip
path's extra `new_address` keyword is ignored by pydantic and so absent
here). -/
structure UpdateRegistryOutput where
  case_id : String
  citizen_id : String
  update_status : String
  message : String
  deriving Repr, DecidableEq

/-- `update_registry` (mcp_server.py): skip when paused for HITL;
otherwise mark the case `UPDATED`, persist the supplied address as the
canonical address, and audit. -/
def update_registry (db : DB) (case_id citizen_id new_address : String) :
    DB × UpdateRegistryOutput :=
  if pausedSkip db case_id then
    (add_audit_entry db case_id "Registry update skipped - case waiting for HITL",
     { case_id := case_id, citizen_id := citizen_id,
       update_status := "skipped_hitl_pending",
       message := "Registry update paused - waiting for HITL address correction" })
  else
    let db := update_case_status db case_id "UPDATED"
    let db := set_canonical_address db case_id new_address
    let db := add_audit_entry db case_id
      ("Registry updated (demo) for citizen_id=" ++ citizen_id
        ++ " with new_address=" ++ sq ++ new_address ++ sq ++ ".")
    (db, { case_id := case_id, citizen_id := citizen_id,
           update_status := "success", message := "Registry updated in Postgres (demo)." })

/-- Output model of `generate_certificate`
(`GenerateCertificateOutput`; the skip path's extra `message` keyword is
ignored by pydantic and so absent here). -/
structure GenerateCertificateOutput where
  case_id : String
  certificate_path : String
  email_status : String
  case_status : String
  deriving Repr, DecidableEq

/-- `generate_certificate` (mcp_server.py): skip when paused for HITL;
otherwise render the PDF (pure I/O, not modelled — its internal
exceptions are caught and never affect the case), attempt email delivery
(`send_certificate_email` returns a boolean and catches every exception
internally, modelled by the `emailSent` oracle), then unconditionally
close the case and audit the delivery outcome. -/
def generate_certificate (emailSent : Bool) (db : DB)
    (case_id email _citizen_name _dob _move_in_date _new_address : String) :
    DB × GenerateCertificateOutput :=
  if pausedSkip db case_id then
    (add_audit_entry db case_id "Certificate generation skipped - case waiting for HITL",
     { case_id := case_id, certificate_path := "skipped_hitl_pending",
       email_status := "skipped", case_status := "WAITING_FOR_HUMAN" })
  else
    let certificate_path := "/app/uploads/" ++ strReplace case_id " " "_" ++ "_certificate.pdf"
    let email_status_msg := if emailSent then "sent" else "failed"
    let db := update_case_status db case_id "CLOSED"
    let db := add_audit_entry db case_id
      ("Official PDF certificate generated at " ++ certificate_path
        ++ ". Email to " ++ email ++ ": " ++ email_status_msg ++ ".")
    (db, { case_id := case_id, certificate_path := certificate_path,
           email_status := email_status_msg ++ " to " ++ email,
           case_status := "CLOSED" })

/-! ### Identity verification and intake (mcp_server.py) -/

/-- `verify_identity` (mcp_server.py): the demo registry stub. -/
def verify_identity (db : DB) (case_id citizen_name _dob : String) : DB × Bool :=
  let ex := !strStartsWith (pyLower citizen_name) "test"
  let db := set_registry_exists db case_id ex
  let db := add_audit_entry db case_id ("Identity verification run. exists=" ++ pyBool ex)
  (db, ex)

/-- `ingest_case` (mcp_server.py): reuse an existing case (audit only) or
create a fresh row; returns the case identifier. -/
def ingest_case (db : DB) (data : CitizenData) (case_id : Option String) : DB × String :=
  match case_id with
  | some cid =>
    (add_audit_entry db cid "Case processing started (using existing case).", cid)
  | none =>
    let r := create_case db data
    (add_audit_entry r.1 r.2 "Case ingested & OCR simulated.", r.2)

/-! ### Human resolution (`resolve_hitl`, api.py)

The diff-based learning compares the original and corrected address
token-wise using `difflib.SequenceMatcher.ratio`.  The functions below
implement that ratio: the total matched size is the sum of the sizes of
the matching blocks obtained by recursively splitting around the longest
matching block (earliest in `a`, then earliest in `b`, among the longest
— difflib's documented tie-break; the autojunk heuristic only activates
on sequences of length ≥ 200 and never fires on address tokens). -/

/-- Length of the longest common prefix of two character lists. -/
def commonPrefixLen : List Char → List Char → Nat
  | a :: as, b :: bs => if a == b then commonPrefixLen as bs + 1 else 0
  | _, _ => 0

/-- All suffixes of a list, each tagged with its start index. -/
def tailsFrom (i : Nat) : List Char → List (Nat × List Char)
  | [] => [(i, [])]
  | c :: cs => (i, c :: cs) :: tailsFrom (i + 1) cs

/-- `find_longest_match` over whole segments: the longest matching block
as `(size, startA, startB)`, ties resolved to the earliest start in `a`
and then in `b`; `(0, 0, 0)` when there is no nonempty common block. -/
def findLongestBlock (a b : List Char) : Nat × Nat × Nat :=
  (tailsFrom 0 a).foldl (fun best ta =>
    (tailsFrom 0 b).foldl (fun best tb =>
      let k := commonPrefixLen ta.2 tb.2
      if best.1 < k then (k, ta.1, tb.1) else best) best)
    (0, 0, 0)

/-- Total size of difflib's matching blocks, by recursive splitting
around the longest block.  The fuel bounds the recursion depth; every
split removes at least one character from each side, so a fuel of
`a.length + b.length + 1` always suffices. -/
def matchTotalAux : Nat → List Char → List Char → Nat
  | 0, _, _ => 0
  | fuel + 1, a, b =>
    let blk := findLongestBlock a b
    let k := blk.1
    let i := blk.2.1
    let j := blk.2.2
    if k == 0 then 0
    else matchTotalAux fuel (a.take i) (b.take j) + k
          + matchTotalAux fuel (a.drop (i + k)) (b.drop (j + k))

/-- `SequenceMatcher(None, a, b).ratio() = 2·M / (|a| + |b|)` as an
exact fraction `(numerator, denominator)` with positive denominator
(`1/1` when both inputs are empty, matching `_calculate_ratio`).  Exact
fractions stand in for the source's IEEE-754 doubles: the ratios of
address tokens have denominators far too small for float rounding to
flip any comparison the learner performs. -/
def simScore (a b : List Char) : Nat × Nat :=
  if a.length + b.length == 0 then (1, 1)
  else (2 * matchTotalAux (a.length + b.length + 1) a b, a.length + b.length)

/-- `similarity` (api.py): ratio of the lowercased tokens. -/
def similarity (a b : String) : Nat × Nat :=
  simScore (pyLower a).data (pyLower b).data

/-- Strict `<` on the exact ratio fractions, by cross-multiplication
(denominators are positive). -/
def fracLt (x y : Nat × Nat) : Bool :=
  x.1 * y.2 < y.1 * x.2

/-- Whether `pat` occurs as a contiguous substring of `hay` (Python's
`in` on strings). -/
def strContains (hay pat : String) : Bool :=
  (hay.data.tails).any (fun t => pat.data.isPrefixOf t)

/-- `determine_pattern_type` (api.py).  The street branch's first literal
is the mojibake byte sequence `"straÃŸe"` actually present in the source
file — it contains the uppercase letter `Ã` and so can never occur in
the lowercased token, leaving `"strasse"` as the only effective test. -/
def determine_pattern_type (original corrected : String) : String :=
  if pyIsUpper original && original.length ≤ 3 && 3 < corrected.length then
    "city_abbreviation"
  else if strEndsWith (pyLower original) "str"
      && (strContains (pyLower corrected) "straÃŸe"
          || strContains (pyLower corrected) "strasse") then
    "street_abbreviation"
  else if pyIsDigit original || pyIsDigit corrected then
    "number_correction"
  else
    "word_correction"

/-- The inner loop of the diff learner: the unused corrected token most
similar to `orig` (strictly positive similarity required, strict
improvement, earliest index on ties), with its similarity. -/
def bestSimMatch (orig : String) (corrTokens : List String) (used : List Nat) :
    (Nat × Nat) × Option (Nat × String) :=
  corrTokens.enum.foldl
    (fun acc p =>
      if used.contains p.1 then acc
      else
        let s := similarity orig p.2
        if fracLt acc.1 s then (s, some p) else acc)
    ((0, 1), none)

/-- The mojibake arrow `â†’` (bytes C3 A2 E2 80 A0 E2 80 99 in api.py)
interpolated into the "Memory learned" audit lines. -/
def mojibakeArrow : String :=
  String.mk [Char.ofNat 0xE2, Char.ofNat 0x2020, Char.ofNat 0x2019]

/-- One iteration of the diff learner's outer loop (api.py, the
`for orig_token in original_tokens` body): pick the best unused corrected
token, consume it, and store the pair when it qualifies as a learnable
pattern.  State: used corrected indices, the store, the
`patterns_learned` messages. -/
def learnStep (corrTokens : List String) (st : List Nat × List Resolution × List String)
    (orig : String) : List Nat × List Resolution × List String :=
  let r := bestSimMatch orig corrTokens st.1
  match r.2 with
  | none => st
  | some (idx, corr) =>
    let used := st.1 ++ [idx]
    if pyLower orig != pyLower corr then
      let is_abbreviation := orig.length < corr.length && fracLt (3, 10) r.1
      let is_similar := fracLt (1, 2) r.1
      let is_short_abbreviation := orig.length ≤ 3 && 5 ≤ corr.length && pyIsUpper orig
      if is_abbreviation || is_similar || is_short_abbreviation then
        let ptype := determine_pattern_type orig corr
        if ptype != "number_correction" && 2 ≤ orig.length then
          (used,
           (store_resolution st.2.1 orig corr ptype).1,
           st.2.2 ++ [sq ++ orig ++ sq ++ " " ++ mojibakeArrow ++ " " ++ sq ++ corr ++ sq
                       ++ " (" ++ ptype ++ ")"])
        else (used, st.2.1, st.2.2)
      else (used, st.2.1, st.2.2)
    else (used, st.2.1, st.2.2)

/-- The cumulative effect of the diff learner's `store_resolution` calls
on the pattern store, plus the `patterns_learned` messages: the greedy,
similarity-weighted token alignment of `resolve_hitl` (api.py). -/
def diffLearn (rs : List Resolution) (original_address corrected_address : String) :
    List Resolution × List String :=
  let st := (wordTokens original_address).foldl
    (learnStep (wordTokens corrected_address)) ([], rs, [])
  (st.2.1, st.2.2)

/-- The whole diff-learning block of `resolve_hitl` (api.py): tokenize
both addresses, audit the comparison, run the greedy alignment (storing
the accepted patterns as it goes) and audit what was learned. -/
def learnFromCorrection (db : DB) (case_id original_address corrected_address : String) : DB :=
  let original_tokens := wordTokens original_address
  let corrected_tokens := wordTokens corrected_address
  let db := add_audit_entry db case_id
    ("Comparing addresses - Original: " ++ pyStrListRepr original_tokens
      ++ ", Corrected: " ++ pyStrListRepr corrected_tokens)
  let r := diffLearn db.resolutions original_address corrected_address
  let db := { db with resolutions := r.1 }
  let learned := r.2
  if !learned.isEmpty then
    let db := learned.foldl (fun d m => add_audit_entry d case_id ("Memory learned: " ++ m)) db
    add_audit_entry db case_id ("Total patterns learned: " ++ toString learned.length)
  else
    add_audit_entry db case_id "No new patterns to learn (addresses were similar)"

/-- The tasks of `AddressChangeMain.crew()` (crew.py), in declaration
order; `Process.sequential` runs them in exactly this order. -/
inductive PipelineStep
  | ingestCase
  | verifyIdentity
  | assessQuality
  | checkBusinessRules
  | updateRegistry
  | generateCertificate
  | auditLog
  deriving Repr, DecidableEq

/-- The full crew task list (crew.py): intake, identity, quality,
business rules, registry, certificate, audit. -/
def addressChangeCrewTasks : List PipelineStep :=
  [.ingestCase, .verifyIdentity, .assessQuality, .checkBusinessRules,
   .updateRegistry, .generateCertificate, .auditLog]

/-- The task list the spec's "restart from Business Rules" protocol would
run: the pipeline from the Business Rules step forward. -/
def businessRulesOnwardTasks : List PipelineStep :=
  [.checkBusinessRules, .updateRegistry, .generateCertificate, .auditLog]

/-- The background job scheduled by `resolve_hitl`'s `resume_workflow`
(api.py): the full crew is kicked off with the case's data, the corrected
address substituted for `new_address_raw`. -/
structure ResumeJob where
  case_id : String
  citizen_data : CitizenData
  tasks : List PipelineStep
  deriving Repr, DecidableEq

/-- A synchronous rejection of `resolve_hitl` (HTTP 404 / 400), raised
before any state change or background work. -/
inductive HitlRejection
  | notFound
  | notWaiting (status : String)
  deriving Repr, DecidableEq

/-- `resolve_hitl` (api.py): validate that the case exists and is
`WAITING_FOR_HUMAN` (rejecting synchronously otherwise, before any
mutation); then set the canonical address to the corrected value, set
status `QUALITY_OK`, audit, run diff-based learning, and schedule the
background resume of the full crew with the corrected address as the new
raw address.  (The endpoint queries `cases` by the raw `case_id`, without
`normalize_case_id`.) -/
def resolve_hitl (db : DB) (case_id corrected_address : String) :
    DB × Except HitlRejection ResumeJob :=
  match db.cases.find? (fun r => r.case_id == case_id) with
  | none => (db, .error .notFound)
  | some row =>
    if row.status != "WAITING_FOR_HUMAN" then
      (db, .error (.notWaiting row.status))
    else
      let original_address := row.new_address_raw
      let db := set_canonical_address db case_id corrected_address
      let db := update_case_status db case_id "QUALITY_OK"
      let db := add_audit_entry db case_id
        ("HITL resolved: Admin corrected address to " ++ sq ++ corrected_address ++ sq)
      let db := learnFromCorrection db case_id original_address corrected_address
      (db, .ok {
        case_id := case_id,
        citizen_data := {
          citizen_name := row.citizen_name, dob := row.dob, email := row.email,
          old_address_raw := row.old_address_raw,
          new_address_raw := corrected_address,
          move_in_date_raw := row.move_in_date_raw,
          landlord_name := row.landlord_name },
        tasks := addressChangeCrewTasks })

/-! ### The operations of the system (for the canonical-address frame
invariant) -/

/-- Every state-mutating operation the core exposes, with its inputs. -/
inductive Op
  | ingest (data : CitizenData) (case_id : Option String)
  | verify (case_id citizen_name dob : String)
  | quality (case_id new_address_raw : String)
  | rules (now : NowTime) (input : BusinessRulesInput)
  | registry (case_id citizen_id new_address : String)
  | certificate (emailSent : Bool)
      (case_id email citizen_name dob move_in_date new_address : String)
  | resolveHitl (case_id corrected_address : String)
  | storeResolutionOp (original_pattern corrected_value resolution_type : String)

/-- Run one operation against the store. -/
def runOp (db : DB) : Op → DB
  | .ingest data cid => (ingest_case db data cid).1
  | .verify cid name dob => (verify_identity db cid name dob).1
  | .quality cid raw => (assess_quality db cid raw).1
  | .rules now input => (check_business_rules now db input).1
  | .registry cid citizen addr => (update_registry db cid citizen addr).1
  | .certificate ok cid email name dob mid addr =>
      (generate_certificate ok db cid email name dob mid addr).1
  | .resolveHitl cid corrected => (resolve_hitl db cid corrected).1
  | .storeResolutionOp p c t =>
      { db with resolutions := (store_resolution db.resolutions p c t).1 }

/-! ## Helper lemmas -/

/-- The rows of the pattern store that carry a given upsert key. -/
def rowsWithKey (rs : List Resolution) (p t : String) : List Resolution :=
  rs.filter (resKeyMatches p t)

/-- The uniqueness invariant of the pattern store: at most one row per
`(original_pattern, resolution_type)` key. -/
def keyUnique (rs : List Resolution) : Prop :=
  ∀ p t, rs.countP (resKeyMatches p t) ≤ 1

theorem resolution_id_le_fold {rs : List Resolution} {r : Resolution} (h : r ∈ rs) :
    r.id ≤ (rs.map Resolution.id).foldr max 0 := by
  induction rs with
  | nil => cases h
  | cons a l ih =>
    rcases List.mem_cons.mp h with h | h
    · subst h; exact Nat.le_max_left _ _
    · exact Nat.le_trans (ih h) (Nat.le_max_right _ _)

theorem resKeyMatches_store_update (p' t' c0 : String) (ex r : Resolution) :
    resKeyMatches p' t'
      (if r.id == ex.id then
        { r with corrected_value := c0, frequency := r.frequency + 1 } else r)
      = resKeyMatches p' t' r := by
  by_cases h : r.id == ex.id <;> simp [h, resKeyMatches]

theorem store_resolution_keyUnique (rs : List Resolution) (p0 c0 t0 : String)
    (hU : keyUnique rs) : keyUnique (store_resolution rs p0 c0 t0).1 := by
  intro p' t'
  unfold store_resolution
  cases hf : rs.find? (resKeyMatches p0 t0) with
  | none =>
    simp only [List.countP_append]
    have hz : rs.countP (resKeyMatches p0 t0) = 0 :=
      List.countP_eq_zero.mpr (List.find?_eq_none.mp hf)
    by_cases hk : (p0 == p' && t0 == t') = true
    · have hp : p0 = p' := by
        have := (Bool.and_eq_true _ _).mp hk
        exact eq_of_beq this.1
      have ht : t0 = t' := by
        have := (Bool.and_eq_true _ _).mp hk
        exact eq_of_beq this.2
      subst hp; subst ht
      simp [hz, resKeyMatches]
    · have : rs.countP (resKeyMatches p' t') ≤ 1 := hU p' t'
      simpa [resKeyMatches, hk] using this
  | some ex =>
    simp only [List.countP_map]
    calc rs.countP (resKeyMatches p' t' ∘ fun r =>
            if r.id == ex.id then
              { r with corrected_value := c0, frequency := r.frequency + 1 } else r)
        = rs.countP (resKeyMatches p' t') := by
          apply List.countP_congr
          intro r _
          simp only [Function.comp_apply, resKeyMatches_store_update p' t' c0 ex r]
      _ ≤ 1 := hU p' t'

theorem list_map_self {α : Type} (l : List α) (f : α → α) (h : ∀ x ∈ l, f x = x) :
    l.map f = l :=
  (List.map_congr_left h).trans (List.map_id l)

theorem store_resolution_eq_insert (rs : List Resolution) (p c t : String)
    (h : rs.find? (resKeyMatches p t) = none) :
    (store_resolution rs p c t).1
      = rs ++ [{ id := nextResolutionId rs, original_pattern := p,
                 corrected_value := c, resolution_type := t, frequency := 1 }] := by
  unfold store_resolution
  rw [h]

theorem store_resolution_eq_update (rs : List Resolution) (p c t : String)
    (ex : Resolution) (h : rs.find? (resKeyMatches p t) = some ex) :
    (store_resolution rs p c t).1
      = rs.map (fun r =>
          if r.id == ex.id then
            { r with corrected_value := c, frequency := r.frequency + 1 } else r) := by
  unfold store_resolution
  rw [h]

/-! ## C3: the pattern store upserts on `(original_pattern, resolution_type)` -/

/-- C3 — Calling `store_resolution` twice with the same
`(original_pattern, resolution_type)` pair and two different corrected
values, starting from a store without that pair, leaves exactly one row
for the pair, with frequency 2 and the second corrected value; moreover
the key-uniqueness invariant (no duplicated rows on re-store) is
preserved by every `store_resolution` call. -/
theorem store_resolution_twice_single_row
    (rs : List Resolution) (p c1 c2 t : String) (_hne : c1 ≠ c2)
    (habs : rowsWithKey rs p t = []) :
    (∃ r : Resolution,
        rowsWithKey (store_resolution (store_resolution rs p c1 t).1 p c2 t).1 p t = [r]
        ∧ r.frequency = 2 ∧ r.corrected_value = c2)
    ∧ (∀ (rs' : List Resolution) (p' c' t' : String),
        keyUnique rs' → keyUnique (store_resolution rs' p' c' t').1) := by
  constructor
  · have habs' : ∀ r ∈ rs, resKeyMatches p t r = false := by
      intro r hr
      have := (List.filter_eq_nil_iff.mp habs) r hr
      simpa using this
    have hfind : rs.find? (resKeyMatches p t) = none :=
      List.find?_eq_none.mpr (fun x hx => by simp [habs' x hx])
    have h1 : (store_resolution rs p c1 t).1
        = rs ++ [{ id := nextResolutionId rs, original_pattern := p,
                   corrected_value := c1, resolution_type := t, frequency := 1 }] :=
      store_resolution_eq_insert rs p c1 t hfind
    -- the fresh row matches the key
    have hkey : resKeyMatches p t
        { id := nextResolutionId rs, original_pattern := p,
          corrected_value := c1, resolution_type := t, frequency := 1 } = true := by
      simp [resKeyMatches]
    -- second call finds exactly the fresh row
    have hfind2 : ((store_resolution rs p c1 t).1).find? (resKeyMatches p t)
        = some { id := nextResolutionId rs, original_pattern := p,
                 corrected_value := c1, resolution_type := t, frequency := 1 } := by
      rw [h1, List.find?_append, hfind]
      simp [hkey]
    refine ⟨{ id := nextResolutionId rs, original_pattern := p,
              corrected_value := c2, resolution_type := t, frequency := 2 }, ?_, rfl, rfl⟩
    rw [store_resolution_eq_update _ p c2 t _ hfind2, h1]
    unfold rowsWithKey
    rw [List.map_append, List.filter_append]
    have hmapid : rs.map (fun r =>
        if r.id == nextResolutionId rs then
          { r with corrected_value := c2, frequency := r.frequency + 1 } else r) = rs := by
      apply list_map_self
      intro r hr
      have hlt : r.id < nextResolutionId rs :=
        Nat.lt_succ_of_le (resolution_id_le_fold hr)
      have : (r.id == nextResolutionId rs) = false := by
        exact beq_false_of_ne (Nat.ne_of_lt hlt)
      simp [this]
    rw [hmapid]
    rw [List.filter_eq_nil_iff.mpr (fun r hr => by simp [habs' r hr])]
    simp [resKeyMatches]
  · intro rs' p' c' t' hU
    exact store_resolution_keyUnique rs' p' c' t' hU

/-- C3 witness: the upsert behaviour at a concrete store. -/
theorem store_resolution_twice_single_row_witness :
    ("KL" : String) ≠ "Kaiserslautern"
    ∧ rowsWithKey [⟨1, "Str", "Straße", "street_abbreviation", 3⟩] "KL" "city_abbreviation" = []
    ∧ (∃ r : Resolution,
        rowsWithKey (store_resolution
            (store_resolution [⟨1, "Str", "Straße", "street_abbreviation", 3⟩]
              "KL" "KL" "city_abbreviation").1
            "KL" "Kaiserslautern" "city_abbreviation").1 "KL" "city_abbreviation" = [r]
        ∧ r.frequency = 2 ∧ r.corrected_value = "Kaiserslautern") :=
  ⟨by decide, by decide,
   (store_resolution_twice_single_row
      [⟨1, "Str", "Straße", "street_abbreviation", 3⟩]
      "KL" "KL" "Kaiserslautern" "city_abbreviation" (by decide) (by decide)).1⟩

/-! ## C4: idempotence of `apply_learned_corrections` -/

theorem applyPatternStep_applied_suffix (l : List Resolution) :
    ∀ s acc, ∃ tail, (l.foldl applyPatternStep (s, acc)).2 = acc ++ tail := by
  induction l with
  | nil => intro s acc; exact ⟨[], by simp⟩
  | cons r l ih =>
    intro s acc
    simp only [List.foldl_cons]
    by_cases hm : (subAll r.original_pattern r.corrected_value s).1 = true
    · have hstep : applyPatternStep (s, acc) r
          = ((subAll r.original_pattern r.corrected_value s).2,
             acc ++ [⟨r.original_pattern, r.corrected_value, r.resolution_type⟩]) := by
        simp [applyPatternStep, hm]
      rw [hstep]
      obtain ⟨tail, htail⟩ := ih (subAll r.original_pattern r.corrected_value s).2
        (acc ++ [⟨r.original_pattern, r.corrected_value, r.resolution_type⟩])
      exact ⟨[⟨r.original_pattern, r.corrected_value, r.resolution_type⟩] ++ tail,
        by rw [htail, List.append_assoc]⟩
    · have hstep : applyPatternStep (s, acc) r = (s, acc) := by
        simp [applyPatternStep, Bool.eq_false_iff.mpr hm]
      rw [hstep]
      exact ih s acc

theorem foldl_applyPatternStep_no_match (l : List Resolution) :
    ∀ s acc, (∀ r ∈ l, (subAll r.original_pattern r.corrected_value s).1 = false) →
      l.foldl applyPatternStep (s, acc) = (s, acc) := by
  induction l with
  | nil => intro s acc _; rfl
  | cons r l ih =>
    intro s acc h
    simp only [List.foldl_cons]
    have hstep : applyPatternStep (s, acc) r = (s, acc) := by
      simp [applyPatternStep, h r (List.mem_cons_self r l)]
    rw [hstep]
    exact ih s acc (fun r' hr' => h r' (List.mem_cons_of_mem r hr'))

/-- C4 counterexample: with the single stored pattern
`"KL" → "KL City"`, applying the learned corrections twice to `"KL"`
gives `"KL City City"`, not the single-application result `"KL City"`
— `apply_learned_corrections` is not idempotent as claimed. -/
theorem apply_learned_corrections_not_idempotent :
    (apply_learned_corrections [⟨1, "KL", "KL City", "city_abbreviation", 1⟩]
        (apply_learned_corrections [⟨1, "KL", "KL City", "city_abbreviation", 1⟩] "KL").1).1
      ≠ (apply_learned_corrections [⟨1, "KL", "KL City", "city_abbreviation", 1⟩] "KL").1 := by
  decide

/-- C4 (amended) — `apply_learned_corrections` is idempotent provided no
stored pattern still matches, as a whole word case-insensitively, the
once-corrected address (the situation a corrected value re-containing a
pattern creates): the second application returns the once-corrected
address unchanged with an empty applied list. -/
theorem apply_learned_corrections_idempotent
    (rs : List Resolution) (address : String)
    (h : ∀ r ∈ sortResolutions rs,
        (subAll r.original_pattern r.corrected_value
          (apply_learned_corrections rs address).1).1 = false) :
    apply_learned_corrections rs (apply_learned_corrections rs address).1
      = ((apply_learned_corrections rs address).1, []) := by
  unfold apply_learned_corrections
  exact foldl_applyPatternStep_no_match _ _ _ h

/-- C4 witness: with the stored pattern `"KL" → "Kaiserslautern"`, the
once-corrected `"KL 12"` contains no further match and the second
application is the identity. -/
theorem apply_learned_corrections_idempotent_witness :
    (∀ r ∈ sortResolutions [⟨1, "KL", "Kaiserslautern", "city_abbreviation", 1⟩],
        (subAll r.original_pattern r.corrected_value
          (apply_learned_corrections
            [⟨1, "KL", "Kaiserslautern", "city_abbreviation", 1⟩] "KL 12").1).1 = false)
    ∧ apply_learned_corrections [⟨1, "KL", "Kaiserslautern", "city_abbreviation", 1⟩]
        (apply_learned_corrections
          [⟨1, "KL", "Kaiserslautern", "city_abbreviation", 1⟩] "KL 12").1
      = ((apply_learned_corrections
          [⟨1, "KL", "Kaiserslautern", "city_abbreviation", 1⟩] "KL 12").1, []) :=
  ⟨by decide,
   apply_learned_corrections_idempotent
     [⟨1, "KL", "Kaiserslautern", "city_abbreviation", 1⟩] "KL 12" (by decide)⟩

/-! ## Fetch/update commutation lemmas -/

theorem fetch_map_cases (db : DB) (f : CaseRow → CaseRow) (cid : String)
    (hid : ∀ r, (f r).case_id = r.case_id) :
    fetch_case_by_id { db with cases := db.cases.map f } cid
      = (fetch_case_by_id db cid).map f := by
  unfold fetch_case_by_id
  simp only [List.find?_map]
  have hp : ((fun r => r.case_id == normalize_case_id cid) ∘ f)
      = (fun r => r.case_id == normalize_case_id cid) :=
    funext (fun r => by rw [Function.comp_apply, hid r])
  rw [hp]

theorem fetch_update_case_status (db : DB) (cid st cid' : String) :
    fetch_case_by_id (update_case_status db cid st) cid'
      = (fetch_case_by_id db cid').map (fun r =>
          if r.case_id == normalize_case_id cid then { r with status := st } else r) := by
  apply fetch_map_cases
  intro r
  by_cases h : (r.case_id == normalize_case_id cid) = true <;> simp [h]

theorem fetch_set_canonical_address (db : DB) (cid a cid' : String) :
    fetch_case_by_id (set_canonical_address db cid a) cid'
      = (fetch_case_by_id db cid').map (fun r =>
          if r.case_id == normalize_case_id cid then
            { r with canonical_address := some a } else r) := by
  apply fetch_map_cases
  intro r
  by_cases h : (r.case_id == normalize_case_id cid) = true <;> simp [h]

theorem fetch_add_audit (db : DB) (c m cid' : String) :
    fetch_case_by_id (add_audit_entry db c m) cid' = fetch_case_by_id db cid' := rfl

theorem fetch_matching_beq (db : DB) (cid : String) (row : CaseRow)
    (h : fetch_case_by_id db cid = some row) :
    (row.case_id == normalize_case_id cid) = true := by
  unfold fetch_case_by_id at h
  exact @List.find?_some CaseRow (fun r => r.case_id == normalize_case_id cid) row db.cases h

/-! ## C6: short uppercase tokens without a street suffix -/

/-- The claim's address shape: some word token of at most three
characters that is uppercase in Python's sense. -/
def containsShortUpperToken (s : String) : Bool :=
  (wordTokens s).any (fun t => decide (t.length ≤ 3) && pyIsUpper t)

theorem foldl_applied_nil_fixed (l : List Resolution) :
    ∀ s acc, (l.foldl applyPatternStep (s, acc)).2 = acc →
      (l.foldl applyPatternStep (s, acc)).1 = s := by
  induction l with
  | nil => intro s acc _; rfl
  | cons r l ih =>
    intro s acc h
    by_cases hm : (subAll r.original_pattern r.corrected_value s).1 = true
    · exfalso
      have hstep : applyPatternStep (s, acc) r
          = ((subAll r.original_pattern r.corrected_value s).2,
             acc ++ [⟨r.original_pattern, r.corrected_value, r.resolution_type⟩]) := by
        simp [applyPatternStep, hm]
      rw [List.foldl_cons, hstep] at h
      obtain ⟨tail, htail⟩ := applyPatternStep_applied_suffix l
        (subAll r.original_pattern r.corrected_value s).2
        (acc ++ [⟨r.original_pattern, r.corrected_value, r.resolution_type⟩])
      rw [htail] at h
      have h' : acc ++ ([(⟨r.original_pattern, r.corrected_value, r.resolution_type⟩ : Applied)]
          ++ tail) = acc ++ [] := by
        rw [List.append_nil, ← List.append_assoc]
        exact h
      exact List.cons_ne_nil _ _ (List.append_cancel_left h')
    · have hstep : applyPatternStep (s, acc) r = (s, acc) := by
        simp [applyPatternStep, Bool.eq_false_iff.mpr hm]
      rw [List.foldl_cons, hstep]
      rw [List.foldl_cons, hstep] at h
      exact ih s acc h

theorem apply_learned_unchanged_of_no_applied (rs : List Resolution) (a : String)
    (h : (apply_learned_corrections rs a).2 = []) :
    (apply_learned_corrections rs a).1 = a := by
  unfold apply_learned_corrections at *
  exact foldl_applied_nil_fixed _ _ _ h

/-- A concrete case row used by the concrete-instance theorems. -/
def demoRow : CaseRow where
  id := 1
  case_id := "Case ID: 1"
  status := "PROCESSING"
  canonical_address := none
  registry_exists := none
  citizen_name := "Max Muster"
  dob := "1990-01-01"
  email := "max@example.de"
  old_address_raw := "Altweg 1, 67659 Kaiserslautern"
  new_address_raw := "KL 12"
  move_in_date_raw := "2026-10-22"
  landlord_name := none

/-- A one-case store with an empty audit log and pattern memory. -/
def demoDB : DB := ⟨[demoRow], [], []⟩

/-- C6 counterexample: `"KL 12"` contains the short uppercase token
`"KL"` and no German street-suffix, yet `assess_quality` (with an empty
pattern store) lands in the "street format unclear" branch and yields
confidence 0.75, not ≤ 0.60. -/
theorem assess_quality_short_upper_cex :
    containsShortUpperToken (pyStrip "KL 12") = true
    ∧ hasCompleteStreet (pyStrip "KL 12") = false
    ∧ (assess_quality demoDB "Case ID: 1" "KL 12").2.confidence = 75
    ∧ ¬((assess_quality demoDB "Case ID: 1" "KL 12").2.confidence ≤ 60) := by
  decide

/-- C6 (amended) — For every address containing a short uppercase token
(≤ 3 characters) and no complete German street-suffix, provided no
learned correction fires on it, `assess_quality` yields confidence
≤ 0.75 (0.60 exactly when an incomplete street token is present),
`needs_hitl = true`, and sets the case status to `WAITING_FOR_HUMAN`. -/
theorem assess_quality_short_upper_no_suffix (db : DB) (cid addr : String)
    (_hTok : containsShortUpperToken (pyStrip addr) = true)
    (hNoFire : (apply_learned_corrections db.resolutions (pyStrip addr)).2 = [])
    (hNoSuffix : hasCompleteStreet (pyStrip addr) = false) :
    (assess_quality db cid addr).2.confidence ≤ 75
    ∧ (assess_quality db cid addr).2.needs_hitl = true
    ∧ ((fetch_case_by_id (assess_quality db cid addr).1 cid).map CaseRow.status
        = (fetch_case_by_id db cid).map (fun _ => "WAITING_FOR_HUMAN")) := by
  have hfix : apply_learned_corrections db.resolutions (pyStrip addr) = (pyStrip addr, []) := by
    have h1 := apply_learned_unchanged_of_no_applied db.resolutions (pyStrip addr) hNoFire
    exact Prod.ext h1 hNoFire
  refine ⟨?_, ?_, ?_⟩ <;>
    by_cases hinc : hasIncompleteStreet (pyStrip addr) = true <;>
    simp [assess_quality, hfix, hinc, hNoSuffix, fetch_add_audit,
      fetch_set_canonical_address, fetch_update_case_status] <;>
    cases hf : fetch_case_by_id db cid with
    | none => rfl
    | some row =>
      have heq : row.case_id = normalize_case_id cid := eq_of_beq (fetch_matching_beq db cid row hf)
      simp [heq]

/-! ## C2: human resolution and the pipeline restart point -/

theorem add_audit_cases (db : DB) (c m : String) :
    (add_audit_entry db c m).cases = db.cases := rfl

theorem add_audit_resolutions (db : DB) (c m : String) :
    (add_audit_entry db c m).resolutions = db.resolutions := rfl

theorem add_audit_audit (db : DB) (c m : String) :
    (add_audit_entry db c m).audit = db.audit ++ [(normalize_case_id c, m)] := rfl

theorem fetch_cases_congr (db1 db2 : DB) (cid : String) (h : db1.cases = db2.cases) :
    fetch_case_by_id db1 cid = fetch_case_by_id db2 cid := by
  unfold fetch_case_by_id
  rw [h]

theorem foldl_add_audit_frame (c : String) (g : String → String) :
    ∀ (l : List String) (db : DB),
      (l.foldl (fun d m => add_audit_entry d c (g m)) db).cases = db.cases
      ∧ (l.foldl (fun d m => add_audit_entry d c (g m)) db).resolutions = db.resolutions := by
  intro l
  induction l with
  | nil => intro db; exact ⟨rfl, rfl⟩
  | cons m l ih =>
    intro db
    exact ⟨(ih (add_audit_entry db c (g m))).1, (ih (add_audit_entry db c (g m))).2⟩

/-- The audit log of `d2` extends that of `d1`. -/
def AuditExt (d1 d2 : DB) : Prop :=
  ∃ tail, d2.audit = d1.audit ++ tail

theorem auditExt_refl (d : DB) : AuditExt d d :=
  ⟨[], by simp⟩

theorem auditExt_add_audit {d1 d2 : DB} (c m : String) (h : AuditExt d1 d2) :
    AuditExt d1 (add_audit_entry d2 c m) := by
  obtain ⟨tail, htail⟩ := h
  exact ⟨tail ++ [(normalize_case_id c, m)],
    by rw [add_audit_audit, htail, List.append_assoc]⟩

theorem auditExt_set_resolutions {d1 d2 : DB} (rs : List Resolution) (h : AuditExt d1 d2) :
    AuditExt d1 { d2 with resolutions := rs } := h

theorem auditExt_foldl_add_audit {d1 : DB} (c : String) (g : String → String) :
    ∀ (l : List String) {d2 : DB}, AuditExt d1 d2 →
      AuditExt d1 (l.foldl (fun d m => add_audit_entry d c (g m)) d2) := by
  intro l
  induction l with
  | nil => intro d2 h; exact h
  | cons m l ih =>
    intro d2 h
    exact ih (auditExt_add_audit c (g m) h)

theorem learnFromCorrection_cases (db : DB) (c o k : String) :
    (learnFromCorrection db c o k).cases = db.cases := by
  unfold learnFromCorrection
  dsimp only
  split
  · exact (foldl_add_audit_frame c _ _ _).1
  · rfl

theorem learnFromCorrection_resolutions (db : DB) (c o k : String) :
    (learnFromCorrection db c o k).resolutions = (diffLearn db.resolutions o k).1 := by
  unfold learnFromCorrection
  dsimp only
  split
  · exact (foldl_add_audit_frame c _ _ _).2
  · rfl

theorem learnFromCorrection_auditExt (db : DB) (c o k : String) :
    AuditExt db (learnFromCorrection db c o k) := by
  unfold learnFromCorrection
  dsimp only
  split
  · exact auditExt_add_audit c _
      (auditExt_foldl_add_audit c _ _
        (auditExt_set_resolutions _ (auditExt_add_audit c _ (auditExt_refl db))))
  · exact auditExt_add_audit c _
      (auditExt_set_resolutions _ (auditExt_add_audit c _ (auditExt_refl db)))

/-- A case paused for human review on the still-incomplete raw address
`"Badstr 7"`. -/
def hitlRow : CaseRow :=
  { demoRow with
    status := "WAITING_FOR_HUMAN"
    new_address_raw := "Badstr 7" }

/-- A one-case store holding `hitlRow`, with empty audit and memory. -/
def hitlDB : DB := ⟨[hitlRow], [], []⟩

/-- C2 counterexample: a successful `resolve_hitl` schedules the FULL
crew — whose task list starts at the ingest step and re-runs the Quality
step before Business Rules — not the pipeline from the Business Rules
step forward; re-running the Quality step on the still-incomplete
corrected address even re-pauses the case. -/
theorem resolve_hitl_restart_point_cex :
    ((resolve_hitl hitlDB "Case ID: 1" "Badstr 7").2.toOption.map ResumeJob.tasks
        = some addressChangeCrewTasks)
    ∧ addressChangeCrewTasks.head? ≠ some PipelineStep.checkBusinessRules
    ∧ addressChangeCrewTasks ≠ businessRulesOnwardTasks
    ∧ PipelineStep.assessQuality ∈ addressChangeCrewTasks
    ∧ (assess_quality (resolve_hitl hitlDB "Case ID: 1" "Badstr 7").1
        "Case ID: 1" "Badstr 7").2.needs_hitl = true := by
  set_option maxRecDepth 4000 in decide

/-- C2 (amended) — For every case in `WAITING_FOR_HUMAN` status,
`resolve_hitl` with a corrected address sets the canonical address to
the corrected value, transitions the status to `QUALITY_OK`, appends
the resolution audit entry, stores the diff-learned patterns, and
schedules a background restart of the FULL crew pipeline (ingest
onward, the Quality step included — not the Business-Rules-onward
suffix) with the corrected address as the case's new raw address. -/
theorem resolve_hitl_resolution (db : DB) (cid corrected : String) (row : CaseRow)
    (hfind : db.cases.find? (fun r => r.case_id == cid) = some row)
    (hst : row.status = "WAITING_FOR_HUMAN")
    (hnorm : normalize_case_id cid = cid) :
    (resolve_hitl db cid corrected).2 = Except.ok {
        case_id := cid,
        citizen_data := {
          citizen_name := row.citizen_name, dob := row.dob, email := row.email,
          old_address_raw := row.old_address_raw,
          new_address_raw := corrected,
          move_in_date_raw := row.move_in_date_raw,
          landlord_name := row.landlord_name },
        tasks := addressChangeCrewTasks }
    ∧ fetch_case_by_id (resolve_hitl db cid corrected).1 cid
        = some { row with canonical_address := some corrected, status := "QUALITY_OK" }
    ∧ (∃ tail, (resolve_hitl db cid corrected).1.audit
        = db.audit ++ (cid, "HITL resolved: Admin corrected address to "
            ++ sq ++ corrected ++ sq) :: tail)
    ∧ (resolve_hitl db cid corrected).1.resolutions
        = (diffLearn db.resolutions row.new_address_raw corrected).1 := by
  have hbne : (row.status != "WAITING_FOR_HUMAN") = false := by simp [hst]
  have hres : resolve_hitl db cid corrected
      = (learnFromCorrection
          (add_audit_entry
            (update_case_status (set_canonical_address db cid corrected) cid "QUALITY_OK")
            cid ("HITL resolved: Admin corrected address to " ++ sq ++ corrected ++ sq))
          cid row.new_address_raw corrected,
         Except.ok {
           case_id := cid,
           citizen_data := {
             citizen_name := row.citizen_name, dob := row.dob, email := row.email,
             old_address_raw := row.old_address_raw,
             new_address_raw := corrected,
             move_in_date_raw := row.move_in_date_raw,
             landlord_name := row.landlord_name },
           tasks := addressChangeCrewTasks }) := by
    unfold resolve_hitl
    rw [hfind]
    simp [hbne]
  have hfetch : fetch_case_by_id db cid = some row := by
    unfold fetch_case_by_id
    rw [hnorm]
    exact hfind
  have hbeq : (row.case_id == normalize_case_id cid) = true := by
    rw [hnorm]
    exact @List.find?_some CaseRow (fun r => r.case_id == cid) row db.cases hfind
  rw [hres]
  refine ⟨rfl, ?_, ?_, ?_⟩
  · rw [fetch_cases_congr _ _ cid (learnFromCorrection_cases _ cid row.new_address_raw corrected),
      fetch_add_audit, fetch_update_case_status, fetch_set_canonical_address, hfetch]
    have heq : row.case_id = normalize_case_id cid := eq_of_beq hbeq
    simp [heq]
  · obtain ⟨tail, htail⟩ := learnFromCorrection_auditExt
      (add_audit_entry
        (update_case_status (set_canonical_address db cid corrected) cid "QUALITY_OK")
        cid ("HITL resolved: Admin corrected address to " ++ sq ++ corrected ++ sq))
      cid row.new_address_raw corrected
    refine ⟨tail, ?_⟩
    rw [htail, add_audit_audit, hnorm, List.append_assoc]
    rfl
  · exact learnFromCorrection_resolutions _ cid row.new_address_raw corrected

/-- C2 witness: the amended behaviour at a concrete waiting case with
the corrected address `"Musterstraße 12, 67663 Kaiserslautern"`. -/
theorem resolve_hitl_resolution_witness :
    (resolve_hitl hitlDB "Case ID: 1" "Musterstraße 12, 67663 Kaiserslautern").2
      = Except.ok {
        case_id := "Case ID: 1",
        citizen_data := {
          citizen_name := hitlRow.citizen_name, dob := hitlRow.dob, email := hitlRow.email,
          old_address_raw := hitlRow.old_address_raw,
          new_address_raw := "Musterstraße 12, 67663 Kaiserslautern",
          move_in_date_raw := hitlRow.move_in_date_raw,
          landlord_name := hitlRow.landlord_name },
        tasks := addressChangeCrewTasks }
    ∧ fetch_case_by_id
        (resolve_hitl hitlDB "Case ID: 1" "Musterstraße 12, 67663 Kaiserslautern").1
        "Case ID: 1"
      = some { hitlRow with
          canonical_address := some "Musterstraße 12, 67663 Kaiserslautern",
          status := "QUALITY_OK" }
    ∧ (∃ tail, (resolve_hitl hitlDB "Case ID: 1"
          "Musterstraße 12, 67663 Kaiserslautern").1.audit
        = hitlDB.audit ++ ("Case ID: 1", "HITL resolved: Admin corrected address to "
            ++ sq ++ "Musterstraße 12, 67663 Kaiserslautern" ++ sq) :: tail)
    ∧ (resolve_hitl hitlDB "Case ID: 1" "Musterstraße 12, 67663 Kaiserslautern").1.resolutions
        = (diffLearn hitlDB.resolutions hitlRow.new_address_raw
            "Musterstraße 12, 67663 Kaiserslautern").1 :=
  resolve_hitl_resolution hitlDB "Case ID: 1" "Musterstraße 12, 67663 Kaiserslautern"
    hitlRow (by decide) (by decide) (by decide)

/-! ## C5: who writes the canonical address -/

theorem get_canonical_map (db : DB) (f : CaseRow → CaseRow) (cid : String)
    (hid : ∀ r, (f r).case_id = r.case_id)
    (hcan : ∀ r, (f r).canonical_address = r.canonical_address) :
    get_canonical_address { db with cases := db.cases.map f } cid
      = get_canonical_address db cid := by
  unfold get_canonical_address
  rw [fetch_map_cases db f cid hid]
  cases fetch_case_by_id db cid with
  | none => rfl
  | some r => simp [hcan r]

theorem get_canonical_add_audit (db : DB) (c m cid : String) :
    get_canonical_address (add_audit_entry db c m) cid = get_canonical_address db cid := rfl

theorem get_canonical_update_status (db : DB) (c s cid : String) :
    get_canonical_address (update_case_status db c s) cid = get_canonical_address db cid := by
  unfold update_case_status
  apply get_canonical_map <;>
    · intro r
      by_cases hb : (r.case_id == normalize_case_id c) = true <;> simp [hb]

theorem get_canonical_set_registry (db : DB) (c : String) (e : Bool) (cid : String) :
    get_canonical_address (set_registry_exists db c e) cid = get_canonical_address db cid := by
  unfold set_registry_exists
  apply get_canonical_map <;>
    · intro r
      by_cases hb : (r.case_id == normalize_case_id c) = true <;> simp [hb]

theorem get_canonical_append_none (db : DB) (row : CaseRow) (cid : String)
    (h : row.canonical_address = none) :
    get_canonical_address { db with cases := db.cases ++ [row] } cid
      = get_canonical_address db cid := by
  unfold get_canonical_address fetch_case_by_id
  rw [List.find?_append]
  cases hf : db.cases.find? (fun r => r.case_id == normalize_case_id cid) with
  | some r => rfl
  | none =>
    simp only [Option.none_or]
    by_cases hb : (row.case_id == normalize_case_id cid) = true
    · simp [List.find?, hb, h]
    · simp [List.find?, hb]

/-- A case that has passed the rules step, with a stored canonical
address. -/
def rulesPassedRow : CaseRow :=
  { demoRow with
    status := "RULES_PASSED"
    canonical_address := some "Altweg 1, 67659 Kaiserslautern" }

/-- A one-case store holding `rulesPassedRow`. -/
def rulesPassedDB : DB := ⟨[rulesPassedRow], [], []⟩

/-- C5 counterexample: `update_registry` — neither the Quality step nor
a human correction — overwrites the stored canonical address of a
non-paused case, refuting the invariant that only those two set it. -/
theorem update_registry_writes_canonical_cex :
    get_canonical_address rulesPassedDB "Case ID: 1"
      = some "Altweg 1, 67659 Kaiserslautern"
    ∧ get_canonical_address
        (runOp rulesPassedDB (Op.registry "Case ID: 1" "CIT-DEMO-001" "Neuweg 5"))
        "Case ID: 1" = some "Neuweg 5"
    ∧ (some "Neuweg 5" : Option String) ≠ some "Altweg 1, 67659 Kaiserslautern" := by
  decide

/-- C5 (amended) — The canonical address is written only by the Quality
step (`assess_quality`), by human correction (`resolve_hitl`), and by
the Registry Update step (`update_registry`, which persists the supplied
address, mcp_server.py:424): every other operation of the system leaves
every case's readable canonical address unchanged. -/
theorem canonical_address_writers (db : DB) (op : Op)
    (hq : ∀ a b, op ≠ Op.quality a b)
    (hr : ∀ a b c, op ≠ Op.registry a b c)
    (hh : ∀ a b, op ≠ Op.resolveHitl a b) :
    ∀ cid, get_canonical_address (runOp db op) cid = get_canonical_address db cid := by
  intro cid
  cases op with
  | ingest data ocid =>
    cases ocid with
    | some c => rfl
    | none =>
      show get_canonical_address
        (add_audit_entry (create_case db data).1 (create_case db data).2
          "Case ingested & OCR simulated.") cid = _
      rw [get_canonical_add_audit]
      exact get_canonical_append_none db _ cid rfl
  | verify c name dob =>
    show get_canonical_address (add_audit_entry (set_registry_exists db c _) c _) cid = _
    rw [get_canonical_add_audit]
    exact get_canonical_set_registry db c _ cid
  | quality a b => exact absurd rfl (hq a b)
  | rules now input =>
    show get_canonical_address (check_business_rules now db input).1 cid = _
    by_cases hskip : businessRulesSkip db input.case_id = true
    · simp [check_business_rules, hskip, get_canonical_add_audit]
    · have hsk : businessRulesSkip db input.case_id = false := Bool.eq_false_iff.mpr hskip
      simp only [check_business_rules, hsk, Bool.false_eq_true, if_false]
      rw [apply_ite (fun d => get_canonical_address d cid)]
      simp [get_canonical_add_audit, get_canonical_update_status]
  | registry a b c => exact absurd rfl (hr a b c)
  | certificate ok c email name dob mid addr =>
    show get_canonical_address (generate_certificate ok db c email name dob mid addr).1 cid = _
    by_cases hskip : pausedSkip db c = true
    · simp [generate_certificate, hskip, get_canonical_add_audit]
    · simp [generate_certificate, hskip, get_canonical_add_audit,
        get_canonical_update_status]
  | resolveHitl a b => exact absurd rfl (hh a b)
  | storeResolutionOp p c t => rfl

/-- C5 witness: identity verification, an operation outside the three
writers, leaves the canonical address of a concrete case unchanged. -/
theorem canonical_address_writers_witness :
    get_canonical_address
        (runOp rulesPassedDB (Op.verify "Case ID: 1" "Max Muster" "1990-01-01"))
        "Case ID: 1"
      = get_canonical_address rulesPassedDB "Case ID: 1" :=
  canonical_address_writers rulesPassedDB (Op.verify "Case ID: 1" "Max Muster" "1990-01-01")
    (fun _ _ h => Op.noConfusion h) (fun _ _ _ h => Op.noConfusion h)
    (fun _ _ h => Op.noConfusion h) "Case ID: 1"

/-! ## C7: the move-in-date plausibility rule -/

/-- C7 — For every case not gated by the HITL pause, the move-in-date
rule of `check_business_rules` yields `"ok"` when the raw date parses
and `(move_date - now).days` lies in `[-365, 30]`, `"suspicious"` with
`needs_hitl = true` when it parses outside that window, and
`"invalid_format"` with `needs_hitl = true` when it does not parse. -/
theorem check_business_rules_move_in_date (now : NowTime) (db : DB)
    (input : BusinessRulesInput)
    (hGate : businessRulesSkip db input.case_id = false) :
    (∀ d, fromisoformat input.move_in_date_raw = some d →
       ((-365 ≤ deltaDays now d ∧ deltaDays now d ≤ 30) →
          (check_business_rules now db input).2.rule_results.lookup "move_in_date"
            = some "ok")
       ∧ ((deltaDays now d < -365 ∨ 30 < deltaDays now d) →
          (check_business_rules now db input).2.rule_results.lookup "move_in_date"
            = some "suspicious"
          ∧ (check_business_rules now db input).2.needs_hitl = true))
    ∧ (fromisoformat input.move_in_date_raw = none →
        (check_business_rules now db input).2.rule_results.lookup "move_in_date"
          = some "invalid_format"
        ∧ (check_business_rules now db input).2.needs_hitl = true) := by
  constructor
  · intro d hd
    constructor
    · intro hin
      simp [check_business_rules, hGate, hd, hin.1, hin.2, List.lookup]
    · intro hout
      have hcond : (decide (-365 ≤ deltaDays now d) && decide (deltaDays now d ≤ 30))
          = false := by
        rcases hout with h | h
        · have hn : ¬ (-365 ≤ deltaDays now d) := not_le.mpr h
          simp [hn]
        · have hn : ¬ (deltaDays now d ≤ 30) := not_le.mpr h
          simp [hn]
      constructor <;> simp [check_business_rules, hGate, hd, hcond, List.lookup]
  · intro hn
    constructor <;> simp [check_business_rules, hGate, hn, List.lookup]

/-- C7 witness: with "now" at 2026-10-12T00:00:00Z, a move-in date 10
days ahead is `"ok"`, one exactly 400 days ahead is `"suspicious"` with
HITL, and an unparseable one is `"invalid_format"` with HITL. -/
theorem check_business_rules_move_in_date_witness :
    (check_business_rules ⟨20738, 0⟩ demoDB
        ⟨"Case ID: 1", "2026-10-22", "irrelevant", true⟩).2.rule_results.lookup
        "move_in_date" = some "ok"
    ∧ ((check_business_rules ⟨20738, 0⟩ demoDB
        ⟨"Case ID: 1", "2027-11-16", "irrelevant", true⟩).2.rule_results.lookup
        "move_in_date" = some "suspicious"
      ∧ (check_business_rules ⟨20738, 0⟩ demoDB
        ⟨"Case ID: 1", "2027-11-16", "irrelevant", true⟩).2.needs_hitl = true)
    ∧ ((check_business_rules ⟨20738, 0⟩ demoDB
        ⟨"Case ID: 1", "soon", "irrelevant", true⟩).2.rule_results.lookup
        "move_in_date" = some "invalid_format"
      ∧ (check_business_rules ⟨20738, 0⟩ demoDB
        ⟨"Case ID: 1", "soon", "irrelevant", true⟩).2.needs_hitl = true) :=
  ⟨((check_business_rules_move_in_date ⟨20738, 0⟩ demoDB
      ⟨"Case ID: 1", "2026-10-22", "irrelevant", true⟩ (by decide)).1 20748
      (by decide)).1 ⟨by decide, by decide⟩,
   ((check_business_rules_move_in_date ⟨20738, 0⟩ demoDB
      ⟨"Case ID: 1", "2027-11-16", "irrelevant", true⟩ (by decide)).1 21138
      (by decide)).2 (Or.inr (by decide)),
   (check_business_rules_move_in_date ⟨20738, 0⟩ demoDB
      ⟨"Case ID: 1", "soon", "irrelevant", true⟩ (by decide)).2 (by decide)⟩

/-! ## C10: the canonical-address argument is dead -/

/-- C10 — `check_business_rules` never reads its caller-supplied
`canonical_address` field (the address-format rule reads the stored
canonical address instead): two invocations differing only in that field
produce identical results and identical stores. -/
theorem check_business_rules_ignores_canonical_arg (now : NowTime) (db : DB)
    (i1 i2 : BusinessRulesInput)
    (hcid : i1.case_id = i2.case_id)
    (hdate : i1.move_in_date_raw = i2.move_in_date_raw)
    (hdocs : i1.documents_ok = i2.documents_ok) :
    (check_business_rules now db i1).1 = (check_business_rules now db i2).1
    ∧ (check_business_rules now db i1).2.rule_results
        = (check_business_rules now db i2).2.rule_results
    ∧ (check_business_rules now db i1).2.needs_hitl
        = (check_business_rules now db i2).2.needs_hitl
    ∧ (check_business_rules now db i1).2.overall_status
        = (check_business_rules now db i2).2.overall_status := by
  obtain ⟨c1, m1, a1, d1⟩ := i1
  obtain ⟨c2, m2, a2, d2⟩ := i2
  cases hcid
  cases hdate
  cases hdocs
  exact ⟨rfl, rfl, rfl, rfl⟩

/-- C10 witness: two concrete calls differing only in the
`canonical_address` argument coincide. -/
theorem check_business_rules_ignores_canonical_arg_witness :
    (check_business_rules ⟨20738, 0⟩ demoDB
        ⟨"Case ID: 1", "2026-10-22", "Some Address 1", true⟩).1
      = (check_business_rules ⟨20738, 0⟩ demoDB
        ⟨"Case ID: 1", "2026-10-22", "Entirely Different 99", true⟩).1
    ∧ (check_business_rules ⟨20738, 0⟩ demoDB
        ⟨"Case ID: 1", "2026-10-22", "Some Address 1", true⟩).2.rule_results
      = (check_business_rules ⟨20738, 0⟩ demoDB
        ⟨"Case ID: 1", "2026-10-22", "Entirely Different 99", true⟩).2.rule_results
    ∧ (check_business_rules ⟨20738, 0⟩ demoDB
        ⟨"Case ID: 1", "2026-10-22", "Some Address 1", true⟩).2.needs_hitl
      = (check_business_rules ⟨20738, 0⟩ demoDB
        ⟨"Case ID: 1", "2026-10-22", "Entirely Different 99", true⟩).2.needs_hitl
    ∧ (check_business_rules ⟨20738, 0⟩ demoDB
        ⟨"Case ID: 1", "2026-10-22", "Some Address 1", true⟩).2.overall_status
      = (check_business_rules ⟨20738, 0⟩ demoDB
        ⟨"Case ID: 1", "2026-10-22", "Entirely Different 99", true⟩).2.overall_status :=
  check_business_rules_ignores_canonical_arg ⟨20738, 0⟩ demoDB
    ⟨"Case ID: 1", "2026-10-22", "Some Address 1", true⟩
    ⟨"Case ID: 1", "2026-10-22", "Entirely Different 99", true⟩ rfl rfl rfl

/-! ## C1: the WAITING_FOR_HUMAN gate skips every downstream step -/

/-- C1 — For every case stored as `WAITING_FOR_HUMAN`, each downstream
step (`check_business_rules`, `update_registry`, `generate_certificate`)
leaves the case rows (hence status and canonical address) and the
pattern store unchanged, appends exactly one skip audit entry, and
returns a paused/skipped result. -/
theorem waiting_case_steps_skip (db : DB) (cid : String) (row : CaseRow)
    (hrow : fetch_case_by_id db cid = some row)
    (hst : row.status = "WAITING_FOR_HUMAN") :
    (∀ (now : NowTime) (mid addr : String) (docs : Bool),
       (check_business_rules now db ⟨cid, mid, addr, docs⟩).1.cases = db.cases
       ∧ (check_business_rules now db ⟨cid, mid, addr, docs⟩).1.resolutions = db.resolutions
       ∧ (check_business_rules now db ⟨cid, mid, addr, docs⟩).1.audit
           = db.audit ++ [(normalize_case_id cid,
               "Business rules check skipped - case waiting for HITL address correction")]
       ∧ (check_business_rules now db ⟨cid, mid, addr, docs⟩).2.overall_status = "paused"
       ∧ (check_business_rules now db ⟨cid, mid, addr, docs⟩).2.needs_hitl = true)
    ∧ (∀ citizen_id new_address : String,
       (update_registry db cid citizen_id new_address).1.cases = db.cases
       ∧ (update_registry db cid citizen_id new_address).1.resolutions = db.resolutions
       ∧ (update_registry db cid citizen_id new_address).1.audit
           = db.audit ++ [(normalize_case_id cid,
               "Registry update skipped - case waiting for HITL")]
       ∧ (update_registry db cid citizen_id new_address).2.update_status
           = "skipped_hitl_pending")
    ∧ (∀ (emailSent : Bool) (email name dob mid addr : String),
       (generate_certificate emailSent db cid email name dob mid addr).1.cases = db.cases
       ∧ (generate_certificate emailSent db cid email name dob mid addr).1.resolutions
           = db.resolutions
       ∧ (generate_certificate emailSent db cid email name dob mid addr).1.audit
           = db.audit ++ [(normalize_case_id cid,
               "Certificate generation skipped - case waiting for HITL")]
       ∧ (generate_certificate emailSent db cid email name dob mid addr).2.case_status
           = "WAITING_FOR_HUMAN"
       ∧ (generate_certificate emailSent db cid email name dob mid addr).2.email_status
           = "skipped") := by
  have hskip1 : businessRulesSkip db cid = true := by
    unfold businessRulesSkip
    rw [hrow]
    simp [hst]
  have hskip2 : pausedSkip db cid = true := by
    unfold pausedSkip
    rw [hrow]
    simp [hst]
  refine ⟨?_, ?_, ?_⟩
  · intro now mid addr docs
    simp [check_business_rules, hskip1, add_audit_entry]
  · intro citizen_id new_address
    simp [update_registry, hskip2, add_audit_entry]
  · intro emailSent email name dob mid addr
    simp [generate_certificate, hskip2, add_audit_entry]

/-- C1 witness: the three skip behaviours at a concrete waiting case. -/
theorem waiting_case_steps_skip_witness :
    ((check_business_rules ⟨20738, 0⟩
        ⟨[{ demoRow with status := "WAITING_FOR_HUMAN" }], [], []⟩
        ⟨"Case ID: 1", "2026-10-22", "x", true⟩).2.overall_status = "paused")
    ∧ ((update_registry ⟨[{ demoRow with status := "WAITING_FOR_HUMAN" }], [], []⟩
        "Case ID: 1" "CIT-DEMO-001" "Neuweg 5").2.update_status = "skipped_hitl_pending")
    ∧ ((generate_certificate false ⟨[{ demoRow with status := "WAITING_FOR_HUMAN" }], [], []⟩
        "Case ID: 1" "max@example.de" "Max" "1990-01-01" "2026-10-22"
        "Neuweg 5").2.case_status = "WAITING_FOR_HUMAN") := by
  have h := waiting_case_steps_skip
    ⟨[{ demoRow with status := "WAITING_FOR_HUMAN" }], [], []⟩ "Case ID: 1"
    { demoRow with status := "WAITING_FOR_HUMAN" } (by decide) (by decide)
  exact ⟨(h.1 ⟨20738, 0⟩ "2026-10-22" "x" true).2.2.2.1,
         (h.2.1 "CIT-DEMO-001" "Neuweg 5").2.2.2,
         (h.2.2 false "max@example.de" "Max" "1990-01-01" "2026-10-22" "Neuweg 5").2.2.2.1⟩

/-! ## C8: certificate generation closes the case regardless of delivery -/

/-- C8 — For every case not paused for HITL, `generate_certificate`
ends the case in status `CLOSED` for both delivery outcomes (in
particular when `send_certificate_email` reports failure, which is also
how its internal exception handler surfaces: email_service.py catches
every exception and returns `False`), and writes one audit entry that
records the delivery outcome. -/
theorem generate_certificate_closes (emailSent : Bool) (db : DB)
    (cid email name dob mid addr : String) (row : CaseRow)
    (hrow : fetch_case_by_id db cid = some row)
    (h1 : row.status ≠ "WAITING_FOR_HUMAN") (h2 : row.status ≠ "paused") :
    fetch_case_by_id (generate_certificate emailSent db cid email name dob mid addr).1 cid
      = some { row with status := "CLOSED" }
    ∧ (generate_certificate emailSent db cid email name dob mid addr).2.case_status
      = "CLOSED"
    ∧ (generate_certificate emailSent db cid email name dob mid addr).1.audit
      = db.audit ++ [(normalize_case_id cid,
          "Official PDF certificate generated at "
            ++ ("/app/uploads/" ++ strReplace cid " " "_" ++ "_certificate.pdf")
            ++ ". Email to " ++ email ++ ": "
            ++ (if emailSent then "sent" else "failed") ++ ".")] := by
  have hskip : pausedSkip db cid = false := by
    unfold pausedSkip
    rw [hrow]
    simp [h1, h2]
  have heq : row.case_id = normalize_case_id cid :=
    eq_of_beq (fetch_matching_beq db cid row hrow)
  refine ⟨?_, ?_, ?_⟩
  · simp only [generate_certificate, hskip, Bool.false_eq_true, if_false,
      fetch_add_audit, fetch_update_case_status, hrow]
    simp [heq]
  · simp [generate_certificate, hskip]
  · simp [generate_certificate, hskip, add_audit_entry, update_case_status]

/-- C8 witness: a concrete non-paused case is closed even though the
email delivery failed, and the audit entry records the failure. -/
theorem generate_certificate_closes_witness :
    fetch_case_by_id (generate_certificate false demoDB "Case ID: 1" "max@example.de"
        "Max Muster" "1990-01-01" "2026-10-22" "Neuweg 5").1 "Case ID: 1"
      = some { demoRow with status := "CLOSED" }
    ∧ (generate_certificate false demoDB "Case ID: 1" "max@example.de"
        "Max Muster" "1990-01-01" "2026-10-22" "Neuweg 5").2.case_status = "CLOSED"
    ∧ (generate_certificate false demoDB "Case ID: 1" "max@example.de"
        "Max Muster" "1990-01-01" "2026-10-22" "Neuweg 5").1.audit
      = demoDB.audit ++ [(normalize_case_id "Case ID: 1",
          "Official PDF certificate generated at "
            ++ ("/app/uploads/" ++ strReplace "Case ID: 1" " " "_" ++ "_certificate.pdf")
            ++ ". Email to " ++ "max@example.de" ++ ": "
            ++ (if false then "sent" else "failed") ++ ".")] :=
  generate_certificate_closes false demoDB "Case ID: 1" "max@example.de" "Max Muster"
    "1990-01-01" "2026-10-22" "Neuweg 5" demoRow (by decide) (by decide) (by decide)

/-! ## C9: resolve_hitl rejects bad preconditions without mutating -/

/-- C9 — `resolve_hitl` on a nonexistent case, or on a case not in
`WAITING_FOR_HUMAN`, returns the store untouched (status, canonical
address, audit log and pattern store all unchanged) together with the
synchronous rejection, before any background work. -/
theorem resolve_hitl_rejected_synchronously (db : DB) (cid corrected : String) :
    (db.cases.find? (fun r => r.case_id == cid) = none →
       resolve_hitl db cid corrected = (db, Except.error HitlRejection.notFound))
    ∧ (∀ row, db.cases.find? (fun r => r.case_id == cid) = some row →
       row.status ≠ "WAITING_FOR_HUMAN" →
       resolve_hitl db cid corrected
         = (db, Except.error (HitlRejection.notWaiting row.status))) := by
  constructor
  · intro h
    simp [resolve_hitl, h]
  · intro row h hst
    have hb : (row.status != "WAITING_FOR_HUMAN") = true := bne_iff_ne.mpr hst
    simp [resolve_hitl, h, hb]

/-- C9 witness: a missing case id and a non-waiting case are both
rejected with the store returned unchanged. -/
theorem resolve_hitl_rejected_synchronously_witness :
    (demoDB.cases.find? (fun r => r.case_id == "Case ID: 99") = none
      ∧ resolve_hitl demoDB "Case ID: 99" "Neuweg 5"
          = (demoDB, Except.error HitlRejection.notFound))
    ∧ (demoDB.cases.find? (fun r => r.case_id == "Case ID: 1") = some demoRow
      ∧ resolve_hitl demoDB "Case ID: 1" "Neuweg 5"
          = (demoDB, Except.error (HitlRejection.notWaiting "PROCESSING"))) :=
  ⟨⟨by decide,
    (resolve_hitl_rejected_synchronously demoDB "Case ID: 99" "Neuweg 5").1 (by decide)⟩,
   ⟨by decide,
    (resolve_hitl_rejected_synchronously demoDB "Case ID: 1" "Neuweg 5").2 demoRow
      (by decide) (by decide)⟩⟩

/-- C6 witness: the amended property at the concrete address
`"KL 12"` with an empty pattern store. -/
theorem assess_quality_short_upper_no_suffix_witness :
    (assess_quality ⟨[], [], []⟩ "Case ID: 6" "KL 12").2.confidence ≤ 75
    ∧ (assess_quality ⟨[], [], []⟩ "Case ID: 6" "KL 12").2.needs_hitl = true
    ∧ ((fetch_case_by_id (assess_quality ⟨[], [], []⟩ "Case ID: 6" "KL 12").1 "Case ID: 6").map CaseRow.status
        = (fetch_case_by_id (⟨[], [], []⟩ : DB) "Case ID: 6").map (fun _ => "WAITING_FOR_HUMAN")) :=
  assess_quality_short_upper_no_suffix ⟨[], [], []⟩ "Case ID: 6" "KL 12"
    (by decide) (by decide) (by decide)

end AddressChange
